import Mathlib

/-!
Verification of the go-sparkey iterator layer (`iter.go`).

The Go package is a thin binding over the sparkey C library.  The C-side
iterator semantics (`sparkey_logiter_next`, `sparkey_logiter_keychunk`,
`sparkey_hash_get`, ...) are modelled here from the design document's
description of the log-iterator state machine and the hash lookup,
pinned where observable by the package's own test expectations.
The Go wrapper layer (error recording into the sticky `err` field,
`errorOrNil` conversion, the `Get`/`Seek` composition) follows `iter.go`
directly.

A log is a pure list of entries; keys and values are byte lists.
-/

namespace Sparkey

/-- Entry type of a log record: a PUT (key/value) or a DELETE marker. -/
inductive EntryType where
  | PUT : EntryType
  | DELETE : EntryType
deriving DecidableEq, Repr

/-- One record of the append-only log: type, key bytes, value bytes
(the value is empty for DELETE markers). -/
structure Entry where
  type : EntryType
  key : List Nat
  value : List Nat
deriving DecidableEq, Repr

/-- Iterator states, mirroring `sparkey_iter_state`. -/
inductive IteratorState where
  | ITERATOR_NEW : IteratorState
  | ITERATOR_ACTIVE : IteratorState
  | ITERATOR_CLOSED : IteratorState
  | ITERATOR_INVALID : IteratorState
deriving DecidableEq, Repr

open EntryType IteratorState

/-- Modelled from the spec: the sparkey return code for success
(`SPARKEY_SUCCESS`, value 0; the constants live in sparkey.h / sparkey.go,
outside this package's iterator source). -/
def rc_SUCCESS : Int := 0

/-- Modelled from the spec: the sparkey return code
`SPARKEY_LOG_ITERATOR_INACTIVE` (-204), returned by chunk reads, reset and
key comparison when an iterator is not positioned on an entry. -/
def rc_ITERINACTIVE : Int := -204

/-- The Go error value wrapping `SPARKEY_LOG_ITERATOR_INACTIVE`. -/
def ERROR_LOG_ITERATOR_INACTIVE : Int := rc_ITERINACTIVE

/-- Modelled from the spec: Go's `maxInt`, the largest value of the Go
`int` type, used by `Key()`/`Value()` to request the full remainder. -/
def maxInt : Nat := 2 ^ 63 - 1

/-- `errorOrNil` from the Go binding: a zero return code is success
(`nil` error), any other code is surfaced as an error value. -/
def errorOrNil (rc : Int) : Option Int :=
  if rc = rc_SUCCESS then none else some rc

/-- The state of a Go `LogIter`: the C iterator's state machine fields
(state, current entry position, per-entry read cursors) plus the Go
binding's sticky error field `err`. The position is the index of the
current entry in the log; it abstracts the C `fileOffset`. -/
structure LogIter where
  state : IteratorState
  pos : Nat
  keyCursor : Nat
  valueCursor : Nat
  err : Option Int
deriving DecidableEq, Repr

/-- A freshly created iterator: state NEW, nothing consumed, no error. -/
def mkLogIter : LogIter := ⟨ITERATOR_NEW, 0, 0, 0, none⟩

/-- The entry of the log at position `p` (the default is irrelevant:
every reachable ACTIVE iterator has an in-range position). -/
def entryAt (log : List Entry) (p : Nat) : Entry :=
  (log.get? p).getD ⟨PUT, [], []⟩

/-- An iterator value representing the end-of-log terminal state:
CLOSED, with current-entry metadata cleared. -/
def closedIter (log : List Entry) (err : Option Int) : LogIter :=
  ⟨ITERATOR_CLOSED, log.length, 0, 0, err⟩

/-- Modelled from the spec: `sparkey_logiter_next`. From NEW it moves to
the first entry; from ACTIVE to the following entry; reaching the end of
the log closes the iterator with a success return code; on a CLOSED or
INVALID iterator it is a no-op success. Entering an entry resets both
read cursors to 0. -/
def logiterNext (log : List Entry) (i : LogIter) : Int × LogIter :=
  match i.state with
  | ITERATOR_NEW =>
      if 0 < log.length then (rc_SUCCESS, ⟨ITERATOR_ACTIVE, 0, 0, 0, i.err⟩)
      else (rc_SUCCESS, closedIter log i.err)
  | ITERATOR_ACTIVE =>
      if i.pos + 1 < log.length then
        (rc_SUCCESS, ⟨ITERATOR_ACTIVE, i.pos + 1, 0, 0, i.err⟩)
      else (rc_SUCCESS, closedIter log i.err)
  | ITERATOR_CLOSED => (rc_SUCCESS, i)
  | ITERATOR_INVALID => (rc_SUCCESS, i)

/-- Modelled from the spec: `sparkey_logiter_skip`, a loop of
`sparkey_logiter_next` calls that stops at the first failure. -/
def logiterSkip (log : List Entry) : Nat → LogIter → Int × LogIter
  | 0, i => (rc_SUCCESS, i)
  | n + 1, i =>
      let r := logiterNext log i
      if r.1 = rc_SUCCESS then logiterSkip log n r.2 else r

/-- `LogIter.Next` from iter.go: calls the C next, records the return
code into the sticky error unless it is success or iterator-inactive,
and returns `errorOrNil` of the code. -/
def LogIter.Next (log : List Entry) (i : LogIter) : Option Int × LogIter :=
  let r := logiterNext log i
  let i' := if r.1 ≠ rc_SUCCESS ∧ r.1 ≠ rc_ITERINACTIVE
    then { r.2 with err := some r.1 } else r.2
  (errorOrNil r.1, i')

/-- `LogIter.Skip` from iter.go: calls the C skip, records the return
code into the sticky error unless it is success or the (never produced)
code `rc_ITERINACTIVE - 205`, and returns `errorOrNil` of the code. -/
def LogIter.Skip (log : List Entry) (i : LogIter) (count : Nat) : Option Int × LogIter :=
  let r := logiterSkip log count i
  let i' := if r.1 ≠ rc_SUCCESS ∧ r.1 ≠ rc_ITERINACTIVE - 205
    then { r.2 with err := some r.1 } else r.2
  (errorOrNil r.1, i')

/-- `LogIter.Reset` from iter.go over the modelled
`sparkey_logiter_reset`: only valid when ACTIVE, in which case both read
cursors rewind to 0 and the position is untouched; otherwise it returns
the iterator-inactive error. The sticky error is never written. -/
def LogIter.Reset (log : List Entry) (i : LogIter) : Option Int × LogIter :=
  if i.state = ITERATOR_ACTIVE then
    (errorOrNil rc_SUCCESS, { i with keyCursor := 0, valueCursor := 0 })
  else (errorOrNil rc_ITERINACTIVE, i)

/-- `LogIter.State` from iter.go. -/
def LogIter.State (i : LogIter) : IteratorState := i.state

/-- `LogIter.Valid` from iter.go: true exactly when the state is ACTIVE. -/
def LogIter.Valid (i : LogIter) : Bool := i.state = ITERATOR_ACTIVE

/-- `LogIter.EntryType` from iter.go over the modelled C accessor: the
current entry's type when ACTIVE, DELETE otherwise (NEW and CLOSED
iterators report cleared metadata). -/
def LogIter.EntryType (log : List Entry) (i : LogIter) : EntryType :=
  match i.state with
  | ITERATOR_ACTIVE => (entryAt log i.pos).type
  | _ => DELETE

/-- `LogIter.KeyLen` from iter.go over the modelled C accessor. -/
def LogIter.KeyLen (log : List Entry) (i : LogIter) : Nat :=
  match i.state with
  | ITERATOR_ACTIVE => (entryAt log i.pos).key.length
  | _ => 0

/-- `LogIter.ValueLen` from iter.go over the modelled C accessor. -/
def LogIter.ValueLen (log : List Entry) (i : LogIter) : Nat :=
  match i.state with
  | ITERATOR_ACTIVE => (entryAt log i.pos).value.length
  | _ => 0

/-- `LogIter.KeyChunk` from iter.go over the modelled
`sparkey_logiter_keychunk`: fails with iterator-inactive unless ACTIVE;
otherwise returns up to `maxlen` unread key bytes and advances the key
cursor by the bytes returned. The sticky error is never written. -/
def LogIter.KeyChunk (log : List Entry) (i : LogIter) (maxlen : Nat) :
    Except Int (List Nat) × LogIter :=
  if i.state = ITERATOR_ACTIVE then
    let chunk := (((entryAt log i.pos).key).drop i.keyCursor).take maxlen
    (Except.ok chunk, { i with keyCursor := i.keyCursor + chunk.length })
  else (Except.error rc_ITERINACTIVE, i)

/-- `LogIter.Key` from iter.go: `KeyChunk maxInt`. -/
def LogIter.Key (log : List Entry) (i : LogIter) : Except Int (List Nat) × LogIter :=
  LogIter.KeyChunk log i maxInt

/-- `LogIter.ValueChunk` from iter.go over the modelled
`sparkey_logiter_valuechunk`, symmetric to `KeyChunk`. -/
def LogIter.ValueChunk (log : List Entry) (i : LogIter) (maxlen : Nat) :
    Except Int (List Nat) × LogIter :=
  if i.state = ITERATOR_ACTIVE then
    let chunk := (((entryAt log i.pos).value).drop i.valueCursor).take maxlen
    (Except.ok chunk, { i with valueCursor := i.valueCursor + chunk.length })
  else (Except.error rc_ITERINACTIVE, i)

/-- `LogIter.Value` from iter.go: `ValueChunk maxInt`. -/
def LogIter.Value (log : List Entry) (i : LogIter) : Except Int (List Nat) × LogIter :=
  LogIter.ValueChunk log i maxInt

/-- Three-way byte-lexicographic comparison of byte lists, returning
-1, 0 or 1 as the sparkey key comparison does. -/
def cmpBytes : List Nat → List Nat → Int
  | [], [] => 0
  | [], _ :: _ => -1
  | _ :: _, [] => 1
  | a :: as, b :: bs => if a < b then -1 else if b < a then 1 else cmpBytes as bs

/-- `LogIter.Compare` from iter.go over the modelled
`sparkey_logiter_keycmp`: fails with iterator-inactive unless both
iterators are ACTIVE; otherwise compares the unread remainders of the
two current keys byte-lexicographically (for clean iterators, the full
keys). Returns `(result, nil)` on success and `(0, error)` on failure;
the sticky errors are never written. -/
def LogIter.Compare (log : List Entry) (i other : LogIter) : Int × Option Int :=
  if i.state = ITERATOR_ACTIVE ∧ other.state = ITERATOR_ACTIVE then
    (cmpBytes (((entryAt log i.pos).key).drop i.keyCursor)
      (((entryAt log other.pos).key).drop other.keyCursor), none)
  else (0, some rc_ITERINACTIVE)

/-- The index of the most recent (largest-position) entry for `key` in
the log, if any. -/
def latestIdx (log : List Entry) (key : List Nat) : Option Nat :=
  (List.range log.length).foldl
    (fun acc j =>
      match log.get? j with
      | some e => if e.key = key then some j else acc
      | none => acc)
    none

/-- Modelled from the spec: the hash index resolves a key to the log
position of its most recent entry when that entry is a PUT; keys that
are absent, and keys whose most recent entry is a DELETE marker, are not
present in the index ("not found"). -/
def hashResolve (log : List Entry) (key : List Nat) : Option Nat :=
  match latestIdx log key with
  | some j =>
      match log.get? j with
      | some e => if e.type = PUT then some j else none
      | none => none
  | none => none

/-- Modelled from the spec and pinned by the package's seek test:
`sparkey_hash_get`. On a hit it repositions the iterator to the resolved
entry and sets it ACTIVE with the key already fully consumed
(`keyCursor = keyLen`: the lookup compares the key while landing, so the
seek test expects a subsequent key read to be empty) and the value
unconsumed (`valueCursor = 0`). On a miss it sets the state to INVALID.
Both outcomes return success. -/
def hashGetC (log : List Entry) (key : List Nat) (i : LogIter) : Int × LogIter :=
  match hashResolve log key with
  | some j =>
      (rc_SUCCESS, ⟨ITERATOR_ACTIVE, j, (entryAt log j).key.length, 0, i.err⟩)
  | none => (rc_SUCCESS, { i with state := ITERATOR_INVALID })

/-- `HashIter.Seek` from iter.go: calls `sparkey_hash_get` and returns
`errorOrNil` of its return code; the sticky error is never written. -/
def HashIter.Seek (log : List Entry) (key : List Nat) (i : LogIter) :
    Option Int × LogIter :=
  let r := hashGetC log key i
  (errorOrNil r.1, r.2)

/-- `HashIter.Get` from iter.go: `Seek`, then if the iterator came out
ACTIVE return `Value()`, else return no value and no error. -/
def HashIter.Get (log : List Entry) (key : List Nat) (i : LogIter) :
    (Option (List Nat) × Option Int) × LogIter :=
  let s := HashIter.Seek log key i
  match s.1 with
  | some rc => ((none, some rc), s.2)
  | none =>
      if s.2.state = ITERATOR_ACTIVE then
        let v := LogIter.Value log s.2
        match v.1 with
        | Except.ok bytes => ((some bytes, none), v.2)
        | Except.error rc => ((none, some rc), v.2)
      else ((none, none), s.2)

/-- An entry position is "live" when it holds the most recent version of
its key and that version is a PUT: no later entry carries the same key. -/
def isLiveAt (log : List Entry) (j : Nat) : Bool :=
  match log.get? j with
  | some e => e.type = PUT && (log.drop (j + 1)).all (fun e2 => ¬ e2.key = e.key)
  | none => false

/-- The first live position at or after `start`, scanning at most `fuel`
positions. -/
def findLive (log : List Entry) : Nat → Nat → Option Nat
  | _, 0 => none
  | start, fuel + 1 =>
      if isLiveAt log start then some start else findLive log (start + 1) fuel

/-- Modelled from the spec: `sparkey_logiter_hashnext`. Repeatedly
advances the embedded log iterator, consulting the hash index to skip
every entry that is not the most recent live version of its key; it
stops on the first live entry (fresh position, cursors 0) or closes the
iterator at end-of-log. On CLOSED or INVALID iterators it is a no-op
success, mirroring `next`. -/
def hashnextC (log : List Entry) (i : LogIter) : Int × LogIter :=
  match i.state with
  | ITERATOR_NEW =>
      match findLive log 0 log.length with
      | some j => (rc_SUCCESS, ⟨ITERATOR_ACTIVE, j, 0, 0, i.err⟩)
      | none => (rc_SUCCESS, closedIter log i.err)
  | ITERATOR_ACTIVE =>
      match findLive log (i.pos + 1) (log.length - (i.pos + 1)) with
      | some j => (rc_SUCCESS, ⟨ITERATOR_ACTIVE, j, 0, 0, i.err⟩)
      | none => (rc_SUCCESS, closedIter log i.err)
  | ITERATOR_CLOSED => (rc_SUCCESS, i)
  | ITERATOR_INVALID => (rc_SUCCESS, i)

/-- `HashIter.NextLive` from iter.go: calls the C hashnext, records the
return code into the sticky error unless it is success or
iterator-inactive, and returns `errorOrNil` of the code. -/
def HashIter.NextLive (log : List Entry) (i : LogIter) : Option Int × LogIter :=
  let r := hashnextC log i
  let i' := if r.1 ≠ rc_SUCCESS ∧ r.1 ≠ rc_ITERINACTIVE
    then { r.2 with err := some r.1 } else r.2
  (errorOrNil r.1, i')

/-- Error outcomes of the streaming reader adapters: the
iterator-inactive failure, or end-of-stream. -/
inductive ReadErr where
  | iterInactive : ReadErr
  | eof : ReadErr
deriving DecidableEq, Repr

/-- Modelled from the spec: the key-stream reader adapter (`KeyReader`,
defined outside this file's source). A zero-length destination succeeds
with zero bytes regardless of iterator state; a non-empty read on a
non-ACTIVE iterator fails with iterator-inactive; a non-empty read on an
exhausted key reports end-of-stream; otherwise it consumes and returns
up to the destination length of unread key bytes. -/
def keyReaderRead (log : List Entry) (i : LogIter) (destLen : Nat) :
    (Nat × Option ReadErr) × LogIter :=
  if destLen = 0 then ((0, none), i)
  else if i.state ≠ ITERATOR_ACTIVE then ((0, some ReadErr.iterInactive), i)
  else
    let chunk := (((entryAt log i.pos).key).drop i.keyCursor).take destLen
    if chunk.length = 0 then ((0, some ReadErr.eof), i)
    else ((chunk.length, none), { i with keyCursor := i.keyCursor + chunk.length })

/-- Modelled from the spec: the value-stream reader adapter
(`ValueReader`), symmetric to `keyReaderRead`. -/
def valueReaderRead (log : List Entry) (i : LogIter) (destLen : Nat) :
    (Nat × Option ReadErr) × LogIter :=
  if destLen = 0 then ((0, none), i)
  else if i.state ≠ ITERATOR_ACTIVE then ((0, some ReadErr.iterInactive), i)
  else
    let chunk := (((entryAt log i.pos).value).drop i.valueCursor).take destLen
    if chunk.length = 0 then ((0, some ReadErr.eof), i)
    else ((chunk.length, none), { i with valueCursor := i.valueCursor + chunk.length })

/-- The entries of the log that are the most recent live version of
their key, in log order. -/
def liveEntries (log : List Entry) : List Entry :=
  (List.range log.length).filterMap
    (fun j => if isLiveAt log j then log.get? j else none)

/-- Repeated `NextLive` traversal: apply `NextLive`, collect the current
entry while the iterator is ACTIVE, and return the collected entries
together with the iterator left when the loop stops. -/
def collectLive (log : List Entry) : Nat → LogIter → List Entry × LogIter
  | 0, i => ([], i)
  | fuel + 1, i =>
      if (HashIter.NextLive log i).2.state = ITERATOR_ACTIVE then
        (entryAt log (HashIter.NextLive log i).2.pos ::
            (collectLive log fuel (HashIter.NextLive log i).2).1,
         (collectLive log fuel (HashIter.NextLive log i).2).2)
      else ([], (HashIter.NextLive log i).2)

/-- The full live traversal of a log from a fresh hash iterator, as in
the package's live-iteration test loop. -/
def liveTraversal (log : List Entry) : List Entry × LogIter :=
  collectLive log (log.length + 1) mkLogIter

/-- Iterating the Go `Next` wrapper `n` times, keeping the final
iterator. -/
def nextN (log : List Entry) : Nat → LogIter → LogIter
  | 0, i => i
  | n + 1, i => nextN log n (LogIter.Next log i).2

/-- The four-entry log written by the package's test fixture
(`writeDefaultTestHash`): xk:short, yk:longvalue, zk:zv, then a delete
of yk. Byte values spell the test strings. -/
def testLog : List Entry :=
  [⟨PUT, [120, 107], [115, 104, 111, 114, 116]⟩,
   ⟨PUT, [121, 107], [108, 111, 110, 103, 118, 97, 108, 117, 101]⟩,
   ⟨PUT, [122, 107], [122, 118]⟩,
   ⟨DELETE, [121, 107], []⟩]

/-! ## Claim theorems -/

/-- C2: `Next` past the last entry is a successful non-error outcome
that leaves the iterator CLOSED with entry type DELETE and zero key and
value lengths, and `Next` on a CLOSED or INVALID iterator is a no-op
success leaving the terminal state unchanged. -/
theorem next_end_of_log_closed_and_idempotent (log : List Entry) (i : LogIter) :
    (i.state = ITERATOR_ACTIVE → log.length ≤ i.pos + 1 →
      LogIter.Next log i = (none, closedIter log i.err) ∧
      (LogIter.Next log i).2.State = ITERATOR_CLOSED ∧
      LogIter.EntryType log (LogIter.Next log i).2 = DELETE ∧
      LogIter.KeyLen log (LogIter.Next log i).2 = 0 ∧
      LogIter.ValueLen log (LogIter.Next log i).2 = 0) ∧
    (i.state = ITERATOR_CLOSED → LogIter.Next log i = (none, i)) ∧
    (i.state = ITERATOR_INVALID → LogIter.Next log i = (none, i)) := by
  refine ⟨fun hs hle => ?_, fun hs => ?_, fun hs => ?_⟩
  · have hnl : ¬ i.pos + 1 < log.length := Nat.not_lt.mpr hle
    simp [LogIter.Next, logiterNext, hs, hnl, errorOrNil, rc_SUCCESS,
      LogIter.State, LogIter.EntryType, LogIter.KeyLen, LogIter.ValueLen, closedIter]
  · simp [LogIter.Next, logiterNext, hs, errorOrNil, rc_SUCCESS]
  · simp [LogIter.Next, logiterNext, hs, errorOrNil, rc_SUCCESS]

/-- Witness for C2 at concrete inputs: the last entry of the test log,
a CLOSED iterator and an INVALID iterator. -/
theorem next_end_of_log_closed_and_idempotent_witness :
    LogIter.Next testLog ⟨ITERATOR_ACTIVE, 3, 0, 0, none⟩ = (none, closedIter testLog none) ∧
    LogIter.Next testLog ⟨ITERATOR_CLOSED, 4, 0, 0, none⟩ =
      (none, ⟨ITERATOR_CLOSED, 4, 0, 0, none⟩) ∧
    LogIter.Next testLog ⟨ITERATOR_INVALID, 0, 0, 0, none⟩ =
      (none, ⟨ITERATOR_INVALID, 0, 0, 0, none⟩) :=
  ⟨((next_end_of_log_closed_and_idempotent testLog ⟨ITERATOR_ACTIVE, 3, 0, 0, none⟩).1
      rfl (by decide)).1,
   (next_end_of_log_closed_and_idempotent testLog ⟨ITERATOR_CLOSED, 4, 0, 0, none⟩).2.1 rfl,
   (next_end_of_log_closed_and_idempotent testLog ⟨ITERATOR_INVALID, 0, 0, 0, none⟩).2.2 rfl⟩

/-- C3: on an ACTIVE iterator freshly positioned on an entry, a first
full `Key()` call returns the whole key and an immediate second `Key()`
call returns the empty byte string as a success; the same holds for
`Value()` over the value stream. -/
theorem key_value_chunks_exactly_once (log : List Entry) (i : LogIter) (e : Entry)
    (hs : i.state = ITERATOR_ACTIVE) (he : log.get? i.pos = some e)
    (hk : i.keyCursor = 0) (hv : i.valueCursor = 0)
    (hkl : e.key.length ≤ maxInt) (hvl : e.value.length ≤ maxInt) :
    (LogIter.Key log i).1 = Except.ok e.key ∧
    (LogIter.Key log (LogIter.Key log i).2).1 = Except.ok [] ∧
    (LogIter.Value log i).1 = Except.ok e.value ∧
    (LogIter.Value log (LogIter.Value log i).2).1 = Except.ok [] := by
  have hea : entryAt log i.pos = e := by simp only [entryAt, he, Option.getD_some]
  refine ⟨?_, ?_, ?_, ?_⟩ <;>
    simp [LogIter.Key, LogIter.KeyChunk, LogIter.Value, LogIter.ValueChunk,
      hs, hea, hk, hv, List.take_of_length_le, hkl, hvl]

/-- Witness for C3: the first entry of the test log. -/
theorem key_value_chunks_exactly_once_witness :
    (LogIter.Key testLog ⟨ITERATOR_ACTIVE, 0, 0, 0, none⟩).1 =
      Except.ok [120, 107] ∧
    (LogIter.Key testLog (LogIter.Key testLog ⟨ITERATOR_ACTIVE, 0, 0, 0, none⟩).2).1 =
      Except.ok [] ∧
    (LogIter.Value testLog ⟨ITERATOR_ACTIVE, 0, 0, 0, none⟩).1 =
      Except.ok [115, 104, 111, 114, 116] ∧
    (LogIter.Value testLog (LogIter.Value testLog ⟨ITERATOR_ACTIVE, 0, 0, 0, none⟩).2).1 =
      Except.ok [] :=
  key_value_chunks_exactly_once testLog ⟨ITERATOR_ACTIVE, 0, 0, 0, none⟩
    ⟨PUT, [120, 107], [115, 104, 111, 114, 116]⟩
    rfl rfl rfl rfl (by decide) (by decide)

/-- C8: `Reset` succeeds exactly on an ACTIVE iterator, rewinding both
cursors to 0 while leaving the position (file offset) and everything
else unchanged, after which the current entry's key and value can be
read again in full; on a non-ACTIVE iterator it fails with the
iterator-inactive error. -/
theorem reset_rewinds_current_entry (log : List Entry) (i : LogIter) (e : Entry) :
    (i.state = ITERATOR_ACTIVE → log.get? i.pos = some e →
      e.key.length ≤ maxInt → e.value.length ≤ maxInt →
      LogIter.Reset log i = (none, { i with keyCursor := 0, valueCursor := 0 }) ∧
      (LogIter.Key log (LogIter.Reset log i).2).1 = Except.ok e.key ∧
      (LogIter.Value log (LogIter.Reset log i).2).1 = Except.ok e.value) ∧
    (i.state ≠ ITERATOR_ACTIVE →
      LogIter.Reset log i = (some ERROR_LOG_ITERATOR_INACTIVE, i)) := by
  constructor
  · intro hs he hkl hvl
    have hea : entryAt log i.pos = e := by simp only [entryAt, he, Option.getD_some]
    refine ⟨?_, ?_, ?_⟩ <;>
      simp [LogIter.Reset, LogIter.Key, LogIter.KeyChunk, LogIter.Value,
        LogIter.ValueChunk, hs, hea, errorOrNil, rc_SUCCESS,
        List.take_of_length_le, hkl, hvl]
  · intro hs
    simp [LogIter.Reset, hs, errorOrNil, rc_SUCCESS, rc_ITERINACTIVE,
      ERROR_LOG_ITERATOR_INACTIVE]

/-- Witness for C8: a partly consumed iterator on the second test entry,
and a NEW iterator for the failure side. -/
theorem reset_rewinds_current_entry_witness :
    LogIter.Reset testLog ⟨ITERATOR_ACTIVE, 1, 2, 4, none⟩ =
      (none, ⟨ITERATOR_ACTIVE, 1, 0, 0, none⟩) ∧
    (LogIter.Key testLog (LogIter.Reset testLog ⟨ITERATOR_ACTIVE, 1, 2, 4, none⟩).2).1 =
      Except.ok [121, 107] ∧
    LogIter.Reset testLog mkLogIter = (some ERROR_LOG_ITERATOR_INACTIVE, mkLogIter) := by
  have h1 := (reset_rewinds_current_entry testLog ⟨ITERATOR_ACTIVE, 1, 2, 4, none⟩
    ⟨PUT, [121, 107], [108, 111, 110, 103, 118, 97, 108, 117, 101]⟩).1
    rfl rfl (by decide) (by decide)
  have h2 := (reset_rewinds_current_entry testLog mkLogIter
    ⟨PUT, [], []⟩).2 (by decide)
  exact ⟨h1.1, h1.2.1, h2⟩

/-- The modelled `sparkey_logiter_next` always returns the success code:
end-of-log is a success, and terminal states are no-op successes. -/
theorem logiterNext_rc (log : List Entry) (i : LogIter) :
    (logiterNext log i).1 = rc_SUCCESS := by
  obtain ⟨s, p, kc, vc, e⟩ := i
  cases s <;> unfold logiterNext <;> dsimp only <;> (try split) <;> rfl

/-- The Go `Next` wrapper returns no error and the stepped iterator. -/
theorem next_eq_step (log : List Entry) (i : LogIter) :
    LogIter.Next log i = (none, (logiterNext log i).2) := by
  unfold LogIter.Next
  simp [logiterNext_rc, errorOrNil]

/-- The modelled `sparkey_logiter_skip` always returns the success code. -/
theorem logiterSkip_rc (log : List Entry) (n : Nat) :
    ∀ i, (logiterSkip log n i).1 = rc_SUCCESS := by
  induction n with
  | zero => intro i; rfl
  | succ n ih =>
      intro i
      simp only [logiterSkip, logiterNext_rc, if_pos]
      exact ih _

/-- The Go `Skip` wrapper returns no error and the skipped iterator. -/
theorem skip_eq_step (log : List Entry) (i : LogIter) (n : Nat) :
    LogIter.Skip log i n = (none, (logiterSkip log n i).2) := by
  unfold LogIter.Skip
  simp [logiterSkip_rc, errorOrNil]

/-- Skipping `n` entries at the C layer is iterating the Go `Next` `n`
times. -/
theorem logiterSkip_eq_nextN (log : List Entry) (n : Nat) :
    ∀ i, (logiterSkip log n i).2 = nextN log n i := by
  induction n with
  | zero => intro i; rfl
  | succ n ih =>
      intro i
      have hstep : nextN log (n + 1) i = nextN log n (logiterNext log i).2 := by
        simp only [nextN, next_eq_step]
      rw [hstep]
      simp only [logiterSkip, logiterNext_rc, if_pos]
      exact ih _

/-- C4: `Skip n` is equivalent to calling `Next` `n` times: it produces
the same iterator (same entry position, same state, same cursors and
same recorded sticky error), and both sides always report success
(`Skip` returns no error, and so does every individual `Next`). -/
theorem skip_equals_repeated_next (log : List Entry) (i : LogIter) (n : Nat) :
    (LogIter.Skip log i n).2 = nextN log n i ∧
    (LogIter.Skip log i n).1 = none ∧
    (LogIter.Next log i).1 = none := by
  refine ⟨?_, ?_, ?_⟩
  · rw [skip_eq_step, logiterSkip_eq_nextN]
  · rw [skip_eq_step]
  · rw [next_eq_step]

/-- C10: the chunk-read, reset and compare operations surface their
errors only through their return values and never write the iterator's
sticky error: `KeyChunk`, `Key`, `ValueChunk`, `Value` and `Reset` leave
`err` untouched on every input, even when they fail on a non-ACTIVE
iterator, where they return the iterator-inactive error (as does
`Compare`) while `err` stays as it was. -/
theorem read_ops_never_record_sticky_error (log : List Entry) (i : LogIter) (maxlen : Nat) :
    (LogIter.KeyChunk log i maxlen).2.err = i.err ∧
    (LogIter.Key log i).2.err = i.err ∧
    (LogIter.ValueChunk log i maxlen).2.err = i.err ∧
    (LogIter.Value log i).2.err = i.err ∧
    (LogIter.Reset log i).2.err = i.err ∧
    (i.state ≠ ITERATOR_ACTIVE →
      (LogIter.KeyChunk log i maxlen).1 = Except.error ERROR_LOG_ITERATOR_INACTIVE ∧
      (LogIter.ValueChunk log i maxlen).1 = Except.error ERROR_LOG_ITERATOR_INACTIVE ∧
      (LogIter.Reset log i).1 = some ERROR_LOG_ITERATOR_INACTIVE ∧
      ∀ other, (LogIter.Compare log i other).2 = some ERROR_LOG_ITERATOR_INACTIVE) := by
  refine ⟨?_, ?_, ?_, ?_, ?_, fun hs => ⟨?_, ?_, ?_, fun other => ?_⟩⟩
  · unfold LogIter.KeyChunk; split <;> rfl
  · unfold LogIter.Key LogIter.KeyChunk; split <;> rfl
  · unfold LogIter.ValueChunk; split <;> rfl
  · unfold LogIter.Value LogIter.ValueChunk; split <;> rfl
  · unfold LogIter.Reset; split <;> rfl
  · simp [LogIter.KeyChunk, hs, ERROR_LOG_ITERATOR_INACTIVE]
  · simp [LogIter.ValueChunk, hs, ERROR_LOG_ITERATOR_INACTIVE]
  · simp [LogIter.Reset, hs, errorOrNil, rc_ITERINACTIVE, rc_SUCCESS,
      ERROR_LOG_ITERATOR_INACTIVE]
  · simp [LogIter.Compare, hs, ERROR_LOG_ITERATOR_INACTIVE]

/-- Witness for C10: a NEW iterator keeps its `nil` sticky error while
the read operations fail. -/
theorem read_ops_never_record_sticky_error_witness :
    (LogIter.Key testLog mkLogIter).2.err = none ∧
    (LogIter.Reset testLog mkLogIter).2.err = none ∧
    (LogIter.Reset testLog mkLogIter).1 = some ERROR_LOG_ITERATOR_INACTIVE ∧
    (LogIter.Compare testLog mkLogIter mkLogIter).2 = some ERROR_LOG_ITERATOR_INACTIVE := by
  have h := read_ops_never_record_sticky_error testLog mkLogIter 5
  have h' := h.2.2.2.2.2 (by decide)
  exact ⟨h.2.1, h.2.2.2.2.1, h'.2.2.1, h'.2.2.2 mkLogIter⟩

/-- C9: on both stream reader adapters, a zero-length read request
succeeds with zero bytes in every iterator state, while a non-empty read
on a non-ACTIVE iterator fails with the iterator-inactive error. -/
theorem reader_zero_length_and_inactive (log : List Entry) (i : LogIter) (n : Nat) :
    keyReaderRead log i 0 = ((0, none), i) ∧
    valueReaderRead log i 0 = ((0, none), i) ∧
    (0 < n → i.state ≠ ITERATOR_ACTIVE →
      keyReaderRead log i n = ((0, some ReadErr.iterInactive), i) ∧
      valueReaderRead log i n = ((0, some ReadErr.iterInactive), i)) := by
  refine ⟨rfl, rfl, fun hn hs => ⟨?_, ?_⟩⟩ <;>
    simp [keyReaderRead, valueReaderRead, Nat.pos_iff_ne_zero.mp hn, hs]

/-- Witness for C9: empty and non-empty reads on a fresh (NEW, never
advanced) iterator. -/
theorem reader_zero_length_and_inactive_witness :
    keyReaderRead testLog mkLogIter 0 = ((0, none), mkLogIter) ∧
    valueReaderRead testLog mkLogIter 0 = ((0, none), mkLogIter) ∧
    keyReaderRead testLog mkLogIter 5 = ((0, some ReadErr.iterInactive), mkLogIter) ∧
    valueReaderRead testLog mkLogIter 5 = ((0, some ReadErr.iterInactive), mkLogIter) := by
  have h := reader_zero_length_and_inactive testLog mkLogIter 5
  have h' := h.2.2 (by decide) (by decide)
  exact ⟨h.1, h.2.1, h'.1, h'.2⟩

/-- `cmpBytes` returns zero exactly on equal byte strings. -/
theorem cmpBytes_eq_zero_iff : ∀ a b : List Nat, cmpBytes a b = 0 ↔ a = b := by
  intro a
  induction a with
  | nil => intro b; cases b <;> simp [cmpBytes]
  | cons x xs ih =>
      intro b
      cases b with
      | nil => simp [cmpBytes]
      | cons y ys =>
          rcases Nat.lt_trichotomy x y with h | h | h
          · simp [cmpBytes, h, Nat.ne_of_lt h]
          · subst h; simp [cmpBytes, ih]
          · simp [cmpBytes, h, Nat.lt_asymm h, (Nat.ne_of_lt h).symm]

/-- `cmpBytes` is anti-symmetric: swapping the arguments negates the
result. -/
theorem cmpBytes_antisymm : ∀ a b : List Nat, cmpBytes b a = -cmpBytes a b := by
  intro a
  induction a with
  | nil => intro b; cases b <;> simp [cmpBytes]
  | cons x xs ih =>
      intro b
      cases b with
      | nil => simp [cmpBytes]
      | cons y ys =>
          rcases Nat.lt_trichotomy x y with h | h | h
          · simp [cmpBytes, h, Nat.lt_asymm h]
          · subst h; simp [cmpBytes, ih]
          · simp [cmpBytes, h, Nat.lt_asymm h]

/-- `cmpBytes` is negative exactly when the first byte string sorts
strictly before the second in byte-lexicographic order. -/
theorem cmpBytes_neg_iff_lex :
    ∀ a b : List Nat, cmpBytes a b < 0 ↔ List.Lex (· < ·) a b := by
  intro a
  induction a with
  | nil =>
      intro b
      cases b with
      | nil => simp [cmpBytes]
      | cons y ys =>
          simp only [cmpBytes, show (-1 : Int) < 0 from by decide, true_iff]
          exact List.Lex.nil
  | cons x xs ih =>
      intro b
      cases b with
      | nil => simp [cmpBytes]
      | cons y ys =>
          rcases Nat.lt_trichotomy x y with h | h | h
          · constructor
            · intro _; exact List.Lex.rel h
            · intro _; simp only [cmpBytes, if_pos h]; decide
          · subst h
            simp only [cmpBytes, Nat.lt_irrefl, if_neg (Nat.lt_irrefl x)]
            rw [List.Lex.cons_iff]
            exact ih ys
          · have hnot : ¬ List.Lex (· < ·) (x :: xs) (y :: ys) := by
              intro hl
              cases hl with
              | cons h2 => exact Nat.lt_irrefl _ h
              | rel h2 => exact Nat.lt_asymm h h2
            simp [cmpBytes, Nat.lt_asymm h, h, hnot]

/-- C5: on two clean ACTIVE iterators over the same log, `Compare`
succeeds and returns zero exactly when the current keys are equal, a
negative result exactly when the first key sorts byte-lexicographically
before the second, and is anti-symmetric (swapping the iterators negates
the result); when either iterator is not ACTIVE it fails with the
iterator-inactive error. -/
theorem compare_orders_current_keys (log : List Entry) (i1 i2 : LogIter) (e1 e2 : Entry) :
    (i1.state = ITERATOR_ACTIVE → i2.state = ITERATOR_ACTIVE →
      log.get? i1.pos = some e1 → log.get? i2.pos = some e2 →
      i1.keyCursor = 0 → i2.keyCursor = 0 →
      (LogIter.Compare log i1 i2).2 = none ∧
      ((LogIter.Compare log i1 i2).1 = 0 ↔ e1.key = e2.key) ∧
      ((LogIter.Compare log i1 i2).1 < 0 ↔ List.Lex (· < ·) e1.key e2.key) ∧
      (LogIter.Compare log i2 i1).1 = -(LogIter.Compare log i1 i2).1) ∧
    (¬(i1.state = ITERATOR_ACTIVE ∧ i2.state = ITERATOR_ACTIVE) →
      LogIter.Compare log i1 i2 = (0, some ERROR_LOG_ITERATOR_INACTIVE)) := by
  constructor
  · intro h1 h2 he1 he2 hc1 hc2
    have hea1 : entryAt log i1.pos = e1 := by
      simp only [entryAt, he1, Option.getD_some]
    have hea2 : entryAt log i2.pos = e2 := by
      simp only [entryAt, he2, Option.getD_some]
    have hfwd : LogIter.Compare log i1 i2 = (cmpBytes e1.key e2.key, none) := by
      simp [LogIter.Compare, h1, h2, hea1, hea2, hc1, hc2]
    have hbwd : LogIter.Compare log i2 i1 = (cmpBytes e2.key e1.key, none) := by
      simp [LogIter.Compare, h1, h2, hea1, hea2, hc1, hc2]
    rw [hfwd, hbwd]
    exact ⟨rfl, cmpBytes_eq_zero_iff e1.key e2.key, cmpBytes_neg_iff_lex e1.key e2.key,
      cmpBytes_antisymm e1.key e2.key⟩
  · intro hna
    simp [LogIter.Compare, hna, ERROR_LOG_ITERATOR_INACTIVE]

/-- Witness for C5: the first two test entries (keys xk and yk), a
self-comparison on equal keys, and a fresh iterator for the failure
side. -/
theorem compare_orders_current_keys_witness :
    (LogIter.Compare testLog ⟨ITERATOR_ACTIVE, 0, 0, 0, none⟩
        ⟨ITERATOR_ACTIVE, 0, 0, 0, none⟩).1 = 0 ∧
    (LogIter.Compare testLog ⟨ITERATOR_ACTIVE, 0, 0, 0, none⟩
        ⟨ITERATOR_ACTIVE, 1, 0, 0, none⟩).1 < 0 ∧
    (LogIter.Compare testLog ⟨ITERATOR_ACTIVE, 1, 0, 0, none⟩
        ⟨ITERATOR_ACTIVE, 0, 0, 0, none⟩).1 =
      -(LogIter.Compare testLog ⟨ITERATOR_ACTIVE, 0, 0, 0, none⟩
        ⟨ITERATOR_ACTIVE, 1, 0, 0, none⟩).1 ∧
    LogIter.Compare testLog mkLogIter ⟨ITERATOR_ACTIVE, 0, 0, 0, none⟩ =
      (0, some ERROR_LOG_ITERATOR_INACTIVE) := by
  have heq := (compare_orders_current_keys testLog ⟨ITERATOR_ACTIVE, 0, 0, 0, none⟩
    ⟨ITERATOR_ACTIVE, 0, 0, 0, none⟩ ⟨PUT, [120, 107], [115, 104, 111, 114, 116]⟩
    ⟨PUT, [120, 107], [115, 104, 111, 114, 116]⟩).1 rfl rfl rfl rfl rfl rfl
  have hlt := (compare_orders_current_keys testLog ⟨ITERATOR_ACTIVE, 0, 0, 0, none⟩
    ⟨ITERATOR_ACTIVE, 1, 0, 0, none⟩ ⟨PUT, [120, 107], [115, 104, 111, 114, 116]⟩
    ⟨PUT, [121, 107], [108, 111, 110, 103, 118, 97, 108, 117, 101]⟩).1
    rfl rfl rfl rfl rfl rfl
  have hinact := (compare_orders_current_keys testLog mkLogIter
    ⟨ITERATOR_ACTIVE, 0, 0, 0, none⟩ ⟨PUT, [], []⟩ ⟨PUT, [], []⟩).2 (by decide)
  exact ⟨heq.2.1.mpr rfl,
    hlt.2.2.1.mpr (List.Lex.rel (by decide)),
    hlt.2.2.2,
    hinact⟩

/-- C1 counterexample: in the package's own seek test, after the
successful `Seek` of key zk the embedded iterator is ACTIVE at the
matching entry, yet its key cursor is not 0 and a subsequent full key
read returns the empty byte string rather than the entry's key bytes
(the test expects `kv()` to be `":" + value`). -/
theorem seek_fresh_cursors_counterexample :
    (HashIter.Seek testLog [122, 107] mkLogIter).2.state = ITERATOR_ACTIVE ∧
    (HashIter.Seek testLog [122, 107] mkLogIter).2.pos = 2 ∧
    ¬((HashIter.Seek testLog [122, 107] mkLogIter).2.keyCursor = 0) ∧
    ¬((LogIter.Key testLog (HashIter.Seek testLog [122, 107] mkLogIter).2).1 =
        Except.ok [122, 107]) := by
  refine ⟨by decide, by decide, by decide, ?_⟩
  have h : (LogIter.Key testLog (HashIter.Seek testLog [122, 107] mkLogIter).2).1 =
      Except.ok [] := by rfl
  rw [h]
  simp

/-- C1 (amended): a hit `Seek(key)` leaves the embedded LogIterator
ACTIVE at the matching entry's position with the key already fully
consumed (`keyCursor = keyLen`, as the hash lookup reads the key while
landing) and `valueCursor = 0`, so a subsequent full key read returns
the empty byte string while a full value read returns the entry's
entire value bytes. -/
theorem seek_hit_key_consumed_value_fresh (log : List Entry) (key : List Nat)
    (i : LogIter) (j : Nat) (e : Entry)
    (hj : hashResolve log key = some j) (he : log.get? j = some e)
    (hvl : e.value.length ≤ maxInt) :
    HashIter.Seek log key i =
      (none, ⟨ITERATOR_ACTIVE, j, e.key.length, 0, i.err⟩) ∧
    (LogIter.Key log (HashIter.Seek log key i).2).1 = Except.ok [] ∧
    (LogIter.Value log (HashIter.Seek log key i).2).1 = Except.ok e.value := by
  have hea : entryAt log j = e := by simp only [entryAt, he, Option.getD_some]
  have hseek : HashIter.Seek log key i =
      (none, ⟨ITERATOR_ACTIVE, j, e.key.length, 0, i.err⟩) := by
    simp [HashIter.Seek, hashGetC, hj, hea, errorOrNil]
  refine ⟨hseek, ?_, ?_⟩ <;>
    simp [hseek, LogIter.Key, LogIter.KeyChunk, LogIter.Value, LogIter.ValueChunk,
      hea, List.take_of_length_le, hvl]

/-- Witness for the amended C1: seeking key zk in the test log. -/
theorem seek_hit_key_consumed_value_fresh_witness :
    HashIter.Seek testLog [122, 107] mkLogIter =
      (none, ⟨ITERATOR_ACTIVE, 2, 2, 0, none⟩) ∧
    (LogIter.Key testLog (HashIter.Seek testLog [122, 107] mkLogIter).2).1 =
      Except.ok [] ∧
    (LogIter.Value testLog (HashIter.Seek testLog [122, 107] mkLogIter).2).1 =
      Except.ok [122, 118] :=
  seek_hit_key_consumed_value_fresh testLog [122, 107] mkLogIter 2
    ⟨PUT, [122, 107], [122, 118]⟩ (by decide) (by decide) (by decide)

/-- C6: `Get` on a key absent from the hash index returns no value and
no error; `Get` on a key whose latest log entry is a DELETE marker also
returns no value and no error; `Get` on a live key returns exactly the
value bytes of that key's most recent entry. -/
theorem get_live_value_or_no_value (log : List Entry) (key : List Nat) (i : LogIter) :
    (latestIdx log key = none →
      HashIter.Get log key i = ((none, none), { i with state := ITERATOR_INVALID })) ∧
    (∀ j e, latestIdx log key = some j → log.get? j = some e → e.type = DELETE →
      HashIter.Get log key i = ((none, none), { i with state := ITERATOR_INVALID })) ∧
    (∀ j e, latestIdx log key = some j → log.get? j = some e → e.type = PUT →
      e.value.length ≤ maxInt →
      (HashIter.Get log key i).1 = (some e.value, none)) := by
  refine ⟨fun hnone => ?_, fun j e hj he ht => ?_, fun j e hj he ht hvl => ?_⟩
  · have hres : hashResolve log key = none := by simp [hashResolve, hnone]
    simp [HashIter.Get, HashIter.Seek, hashGetC, hres, errorOrNil]
  · have he' : log[j]? = some e := by rw [← List.get?_eq_getElem?]; exact he
    have hres : hashResolve log key = none := by
      simp [hashResolve, hj, he', ht]
    simp [HashIter.Get, HashIter.Seek, hashGetC, hres, errorOrNil]
  · have he' : log[j]? = some e := by rw [← List.get?_eq_getElem?]; exact he
    have hres : hashResolve log key = some j := by
      simp [hashResolve, hj, he', ht]
    have hea : entryAt log j = e := by simp only [entryAt, he, Option.getD_some]
    simp [HashIter.Get, HashIter.Seek, hashGetC, hres, errorOrNil,
      LogIter.Value, LogIter.ValueChunk, hea, List.take_of_length_le, hvl]

/-- Witness for C6: a missing key, the deleted key yk and the live key
zk of the test log. -/
theorem get_live_value_or_no_value_witness :
    HashIter.Get testLog [109, 105] mkLogIter =
      ((none, none), { mkLogIter with state := ITERATOR_INVALID }) ∧
    HashIter.Get testLog [121, 107] mkLogIter =
      ((none, none), { mkLogIter with state := ITERATOR_INVALID }) ∧
    (HashIter.Get testLog [122, 107] mkLogIter).1 = (some [122, 118], none) := by
  have h1 := (get_live_value_or_no_value testLog [109, 105] mkLogIter).1 (by decide)
  have h2 := (get_live_value_or_no_value testLog [121, 107] mkLogIter).2.1 3
    ⟨DELETE, [121, 107], []⟩ (by decide) (by decide) rfl
  have h3 := (get_live_value_or_no_value testLog [122, 107] mkLogIter).2.2 2
    ⟨PUT, [122, 107], [122, 118]⟩ (by decide) (by decide) rfl (by decide)
  exact ⟨h1, h2, h3⟩

/-- The modelled `sparkey_logiter_hashnext` always returns the success
code. -/
theorem hashnextC_rc (log : List Entry) (i : LogIter) :
    (hashnextC log i).1 = rc_SUCCESS := by
  obtain ⟨s, p, kc, vc, e⟩ := i
  cases s <;> unfold hashnextC <;> dsimp only <;> (try split) <;> rfl

/-- The Go `NextLive` wrapper returns no error and the stepped
iterator. -/
theorem nextLive_eq_step (log : List Entry) (i : LogIter) :
    HashIter.NextLive log i = (none, (hashnextC log i).2) := by
  unfold HashIter.NextLive
  simp [hashnextC_rc, errorOrNil]

/-- `hashnextC` as a function of the next candidate position: from NEW
the candidate is 0, from ACTIVE at `p` it is `p + 1`; the result lands
on the first live position at or after the candidate, or closes the
iterator. -/
theorem hashnextC_candidate (log : List Entry) (i : LogIter) (c : Nat)
    (hc : (i.state = ITERATOR_NEW ∧ c = 0) ∨
          (i.state = ITERATOR_ACTIVE ∧ c = i.pos + 1)) :
    (hashnextC log i).2 =
      match findLive log c (log.length - c) with
      | some j => ⟨ITERATOR_ACTIVE, j, 0, 0, i.err⟩
      | none => closedIter log i.err := by
  rcases hc with ⟨hs, hc⟩ | ⟨hs, hc⟩
  · subst hc
    simp only [Nat.sub_zero]
    cases hfl : findLive log 0 log.length <;> simp [hashnextC, hs, hfl]
  · subst hc
    cases hfl : findLive log (i.pos + 1) (log.length - (i.pos + 1)) <;>
      simp [hashnextC, hs, hfl]

/-- Traversal invariant for C7: from an iterator whose next candidate
position is `c`, with `c + n` entries in the log and more than `n` steps
of fuel, the `NextLive` collection loop returns exactly the live entries
at positions `c, ..., c + n - 1` in order and stops on the closed
iterator. -/
theorem collectLive_spec (log : List Entry) :
    ∀ n c i fuel, c + n = log.length →
      ((i.state = ITERATOR_NEW ∧ c = 0) ∨
       (i.state = ITERATOR_ACTIVE ∧ c = i.pos + 1)) →
      n < fuel →
      collectLive log fuel i =
        ((List.range' c n).filterMap
            (fun j => if isLiveAt log j then log.get? j else none),
         closedIter log i.err) := by
  intro n
  induction n with
  | zero =>
      intro c i fuel hcn hcand hfuel
      obtain ⟨f, rfl⟩ : ∃ f, fuel = f + 1 := ⟨fuel - 1, by omega⟩
      have h0 : log.length - c = 0 := by omega
      have hstep : (HashIter.NextLive log i).2 = closedIter log i.err := by
        rw [nextLive_eq_step, hashnextC_candidate log i c hcand, h0]
        simp [findLive]
      have hne : ¬ (closedIter log i.err).state = ITERATOR_ACTIVE := fun h =>
        IteratorState.noConfusion h
      simp only [collectLive]
      rw [hstep, if_neg hne]
      rfl
  | succ n ih =>
      intro c i fuel hcn hcand hfuel
      obtain ⟨f, rfl⟩ : ∃ f, fuel = f + 1 := ⟨fuel - 1, by omega⟩
      have hlen : log.length - c = n + 1 := by omega
      have hclt : c < log.length := by omega
      by_cases hl : isLiveAt log c = true
      · have hfind : findLive log c (log.length - c) = some c := by
          rw [hlen]
          unfold findLive
          rw [if_pos hl]
        have hstep : (HashIter.NextLive log i).2 =
            ⟨ITERATOR_ACTIVE, c, 0, 0, i.err⟩ := by
          rw [nextLive_eq_step, hashnextC_candidate log i c hcand, hfind]
        have hrec := ih (c + 1) ⟨ITERATOR_ACTIVE, c, 0, 0, i.err⟩ f
          (by omega) (Or.inr ⟨rfl, rfl⟩) (by omega)
        have he : log.get? c = some (log.get ⟨c, hclt⟩) := List.get?_eq_get hclt
        have hea : entryAt log c = log.get ⟨c, hclt⟩ := by
          simp only [entryAt, he, Option.getD_some]
        simp only [collectLive]
        rw [hstep,
          if_pos (show (⟨ITERATOR_ACTIVE, c, 0, 0, i.err⟩ : LogIter).state =
            ITERATOR_ACTIVE from rfl),
          hrec, List.range'_succ, List.filterMap_cons]
        simp only [hl, if_true, he, hea]
      · have hfind : findLive log c (log.length - c) = findLive log (c + 1) n := by
          rw [hlen]
          conv_lhs => rw [findLive]
          rw [if_neg hl]
        have hsub : log.length - (c + 1) = n := by omega
        have hstep2 : (HashIter.NextLive log i).2 =
            (HashIter.NextLive log ⟨ITERATOR_ACTIVE, c, 0, 0, i.err⟩).2 := by
          rw [nextLive_eq_step, nextLive_eq_step,
            hashnextC_candidate log i c hcand,
            hashnextC_candidate log ⟨ITERATOR_ACTIVE, c, 0, 0, i.err⟩ (c + 1)
              (Or.inr ⟨rfl, rfl⟩),
            hfind, hsub]
        have hrec := ih (c + 1) ⟨ITERATOR_ACTIVE, c, 0, 0, i.err⟩ (f + 1)
          (by omega) (Or.inr ⟨rfl, rfl⟩) (by omega)
        have hcoll : collectLive log (f + 1) i =
            collectLive log (f + 1) ⟨ITERATOR_ACTIVE, c, 0, 0, i.err⟩ := by
          simp only [collectLive]
          rw [hstep2]
        rw [hcoll, hrec, List.range'_succ, List.filterMap_cons]
        simp only [hl, if_false, Bool.false_eq_true]

/-- C7: repeated `NextLive` traversal from a fresh hash iterator yields
exactly the entries that are the most-recent live (non-deleted) version
of their key, in log order — skipping entries superseded by a later
entry for the same key and keys whose latest version is a delete marker
— and finishes with the iterator CLOSED and no longer valid at
end-of-log. -/
theorem nextLive_traverses_exactly_live_entries (log : List Entry) :
    (liveTraversal log).1 = liveEntries log ∧
    (liveTraversal log).2 = closedIter log none ∧
    LogIter.Valid (liveTraversal log).2 = false := by
  have h := collectLive_spec log log.length 0 mkLogIter (log.length + 1)
    (by omega) (Or.inl ⟨rfl, rfl⟩) (by omega)
  unfold liveTraversal
  rw [h]
  refine ⟨?_, rfl, rfl⟩
  unfold liveEntries
  rw [List.range_eq_range']

end Sparkey

